import Mathlib

/-!
Verification of the request-handling pipeline of `http_server.py`, a minimal
single-process HTTP/1.1 static file server (class `WebServer`).

The embedding models Python strings as `List Char` (named `Chars`) for the
path machinery and as Lean `String` at the handler boundary.  Socket writes
are modelled as a list of `Chunk`s (each `sendall` call appends one chunk);
the filesystem is a finite association list from absolute path strings to
file contents (bytes as `List Nat`) plus a readability flag that models
`open` succeeding or raising.  The `Date` header value, produced in the
source by `format_date_time(datetime.now().timestamp())`, is a parameter.
-/

abbrev Chars := List Char

/-- Python line-boundary characters used by `str.splitlines`
(`\n`, `\r`, `\x0b`, `\x0c`, `\x1c`, `\x1d`, `\x1e`, `\x85`, ` `, ` `). -/
def isLineBreak (c : Char) : Bool :=
  c == '\n' || c == '\r' || c.val == 11 || c.val == 12 ||
  c.val == 28 || c.val == 29 || c.val == 30 || c.val == 0x85 ||
  c.val == 0x2028 || c.val == 0x2029

/-- Python whitespace characters as used by no-argument `str.split`
(the `str.isspace` set). -/
def isPySpace (c : Char) : Bool :=
  c == ' ' || c == '\t' || c == '\n' || c == '\r' ||
  c.val == 11 || c.val == 12 ||
  (decide (28 ≤ c.val) && decide (c.val ≤ 31)) ||
  c.val == 0x85 || c.val == 0xa0 || c.val == 0x1680 ||
  (decide (0x2000 ≤ c.val) && decide (c.val ≤ 0x200a)) ||
  c.val == 0x2028 || c.val == 0x2029 || c.val == 0x202f ||
  c.val == 0x205f || c.val == 0x3000

/-- `request_data.splitlines()[0]`: the characters before the first
line-boundary character (the whole string if there is none). -/
def firstLine (l : Chars) : Chars := l.takeWhile (fun c => !isLineBreak c)

/-- Split a character list at every separator character, keeping empty
pieces, like Python `s.split('/')`:  `splitSep '/' "a//b" = ["a","","b"]`. -/
def splitSep (sep : Char) : Chars → List Chars
  | [] => [[]]
  | c :: cs =>
    if c = sep then [] :: splitSep sep cs
    else
      match splitSep sep cs with
      | [] => [[c]]
      | h :: t => (c :: h) :: t

/-- Split on a character predicate dropping empty pieces, like Python
no-argument `str.split`. -/
def splitAny (p : Char → Bool) : Chars → List Chars
  | [] => [[]]
  | c :: cs =>
    if p c then [] :: splitAny p cs
    else
      match splitAny p cs with
      | [] => [[c]]
      | h :: t => (c :: h) :: t

/-- `request_line.split()`: whitespace-separated tokens, empties discarded. -/
def splitWs (l : Chars) : List Chars :=
  (splitAny isPySpace l).filter (fun s => s ≠ [])

/-- `'/'.join(segs)` over character lists. -/
def joinSegs : List Chars → Chars
  | [] => []
  | [s] => s
  | s :: rest => s ++ '/' :: joinSegs rest

/-- Python `str.startswith`: first argument is the would-be initial
segment, second the full string. -/
def pyStartswith : Chars → Chars → Bool
  | [], _ => true
  | _ :: _, [] => false
  | a :: as, b :: bs => a == b && pyStartswith as bs

/-- `path.endswith('/')`. -/
def endsSlash (l : Chars) : Bool := l.getLast? == some '/'

/-- A path component that survives normalization unchanged: nonempty and
neither `.` nor `..`. -/
def isPlainSeg (s : Chars) : Bool := s ≠ [] && s ≠ ['.'] && s ≠ ['.', '.']

/-- The component loop of `posixpath.normpath`: skip empty and `.`
components; append a component unless it is a `..` that must cancel; a
`..` cancels the previous kept component, except that leading `..`s are
kept for relative paths and dropped at the root of absolute paths.
`acc` holds the kept components in reverse. -/
def normParts (initialSlashes : Nat) : List Chars → List Chars → List Chars
  | acc, [] => acc.reverse
  | acc, comp :: rest =>
    if comp = [] ∨ comp = ['.'] then normParts initialSlashes acc rest
    else if comp ≠ ['.', '.'] ∨ (initialSlashes = 0 ∧ acc = []) ∨
            (acc ≠ [] ∧ acc.head? = some ['.', '.']) then
      normParts initialSlashes (comp :: acc) rest
    else
      match acc with
      | [] => normParts initialSlashes acc rest
      | _ :: t => normParts initialSlashes t rest

/-- The `initial_slashes` count of `posixpath.normpath`: 1 for an
absolute path, 2 for the POSIX-special case of a path starting with
exactly two slashes, 0 for a relative path. -/
def initialSlashesOf (l : Chars) : Nat :=
  if l.take 2 = ['/', '/'] ∧ l.take 3 ≠ ['/', '/', '/'] then 2
  else if l.take 1 = ['/'] then 1 else 0

/-- `posixpath.normpath`: collapse `//`, `.` and `..` (POSIX rules,
including the special treatment of a path starting with exactly two
slashes); an empty result becomes `.`. -/
def normpath (l : Chars) : Chars :=
  if List.replicate (initialSlashesOf l) '/' ++
      joinSegs (normParts (initialSlashesOf l) [] (splitSep '/' l)) = [] then
    ['.']
  else
    List.replicate (initialSlashesOf l) '/' ++
      joinSegs (normParts (initialSlashesOf l) [] (splitSep '/' l))

/-- `os.path.abspath`.  The server makes its document root absolute at
startup (`os.path.abspath(root)` in `__init__`) and joins request targets
onto it, so every argument passed here is already absolute, where
`abspath` coincides with `normpath`. -/
def abspath (l : Chars) : Chars := normpath l

/-- `posixpath.join a b` for two components. -/
def pathJoin (a b : Chars) : Chars :=
  if b.take 1 = ['/'] then b
  else if a = [] ∨ endsSlash a then a ++ b
  else a ++ '/' :: b

/-- Lines 57-60 of `handle_client`: append `index.html` to a target ending
in `/`, strip leading slashes, join onto the root, and normalize:
`os.path.abspath(os.path.join(self.root, path.lstrip('/')))`. -/
def resolve_target (root : Chars) (path0 : Chars) : Chars :=
  abspath (pathJoin root
    ((if endsSlash path0 then path0 ++ ("index.html".data) else path0).dropWhile
      (fun c => c = '/')))

/-- The last path component (`posixpath` basename). -/
def basenameOf (l : Chars) : Chars := (splitSep '/' l).getLast?.getD []

/-- The extension part of `posixpath.splitext` applied to a basename:
the suffix starting at the last dot, unless every character before that
dot is itself a dot (so `.bashrc` has no extension). -/
def lastExt (b : Chars) : Chars :=
  let r := b.reverse
  let pre := r.takeWhile (fun c => c ≠ '.')
  if pre.length = r.length then []
  else
    let before := (r.drop (pre.length + 1)).reverse
    if before.all (fun c => c = '.') then [] else '.' :: pre.reverse

/-- The extension-to-MIME-type registry consulted by
`mimetypes.guess_type`: the entries registered in `__main__` via
`mimetypes.add_type` (`.css`, `.jpg`, `.jpeg`, `.png`, `.gif`) together
with the stdlib default entries relevant to this server's behavior. -/
def mime_types : List (String × String) :=
  [(".html", "text/html"), (".htm", "text/html"), (".css", "text/css"),
   (".js", "text/javascript"), (".txt", "text/plain"),
   (".json", "application/json"), (".jpg", "image/jpeg"),
   (".jpeg", "image/jpeg"), (".png", "image/png"), (".gif", "image/gif"),
   (".pdf", "application/pdf"), (".xml", "text/xml"),
   (".svg", "image/svg+xml")]

/-- `mimetypes.guess_type(filepath)[0]`: look the (lowercased) extension
of the path's basename up in the registry. -/
def guess_type (filepath : String) : Option String :=
  mime_types.lookup (String.mk ((lastExt (basenameOf filepath.data)).map Char.toLower))

/-- Line 81 of `send_file`:
`mimetypes.guess_type(filepath)[0] or 'application/octet-stream'`. -/
def contentTypeOf (filepath : String) : String :=
  (guess_type filepath).getD "application/octet-stream"

/-- `self._server_name`. -/
def serverName : String := "NicksDiscountServer/1.0"

/-- Python `'\r\n'.join(headers)`. -/
def joinCRLF : List String → String
  | [] => ""
  | [s] => s
  | s :: rest => s ++ "\r\n" ++ joinCRLF rest

/-- `WebServer.build_headers` (lines 100-114): the header list, joined
with CRLF.  The final `"\r\n"` element yields the blank-line terminator. -/
def build_headers (date : String) (status_code : Nat) (status_message : String)
    (content_type : String) (content_length : Nat) : String :=
  joinCRLF
    ["HTTP/1.1 " ++ toString status_code ++ " " ++ status_message,
     "Date: " ++ date,
     "Server: " ++ serverName,
     "Content-Type: " ++ content_type,
     "Content-Length: " ++ toString content_length,
     "Connection: close",
     "\r\n"]

/-- One `sendall` call: either the UTF-8 encoding of a Python `str`, or a
raw `bytes` value (file contents). -/
inductive Chunk
  | text (s : String)
  | raw (b : List Nat)
deriving DecidableEq

/-- The HTML error body built in `send_error` (line 92). -/
def errorBody (status_code : Nat) (status_message : String) : String :=
  "<html><body><h1>" ++ toString status_code ++ " " ++ status_message ++
    "</h1></body></html>"

/-- `WebServer.send_error` (lines 91-98): headers for the status with
`Content-Type: text/html` and the byte length of the encoded body,
followed by the body. -/
def send_error (date : String) (status_code : Nat) (status_message : String) :
    List Chunk :=
  [Chunk.text (build_headers date status_code status_message "text/html"
      (errorBody status_code status_message).utf8ByteSize),
   Chunk.text (errorBody status_code status_message)]

/-- A file on disk: its bytes, and whether `open` succeeds on it (a file
may exist yet raise on `open`, e.g. due to permissions). -/
structure FileInfo where
  content : List Nat
  readable : Bool
deriving DecidableEq

/-- The filesystem visible to the server: absolute path of each existing
regular file, mapped to its `FileInfo`.  Directories and special files
are simply absent (`os.path.isfile` is false for them). -/
abbrev FS := List (String × FileInfo)

/-- `WebServer.send_file` (lines 75-89): read the file (on failure fall
back to `send_error 404`), then send headers with the guessed content
type and exact byte count, then the raw bytes. -/
def send_file (date : String) (fs : FS) (filepath : String) : List Chunk :=
  match fs.lookup filepath with
  | some fi =>
    if fi.readable then
      [Chunk.text (build_headers date 200 "OKEE DOKEE" (contentTypeOf filepath)
          fi.content.length),
       Chunk.raw fi.content]
    else send_error date 404 "File Not Found"
  | none => send_error date 404 "File Not Found"

/-- The server configuration: `self.root`, made absolute at startup. -/
structure Config where
  root : String

/-- The outcome of `clientsocket.recv(1024).decode('utf-8')`: either a
`UnicodeDecodeError` (raised inside the `try`, so caught by the handler's
`except`), or the decoded text (`""` when the read yields no data). -/
inductive RecvResult
  | decodeErr
  | data (s : String)

/-- Lines 61-68 of `handle_client`: the containment check
(`requested_path.startswith(self.root)`), the
`os.path.exists and os.path.isfile` check, and the dispatch to
`send_file` or `send_error`. -/
def serve_path (date : String) (cfg : Config) (fs : FS)
    (requested_path : String) : List Chunk :=
  if pyStartswith cfg.root.data requested_path.data then
    if (fs.lookup requested_path).isSome then
      send_file date fs requested_path
    else send_error date 404 "File Not Found"
  else send_error date 404 "File Not Found"

/-- The `try` body of `handle_client` (lines 46-68), given decoded request
text: the list of chunks sent on the socket.  A raised exception
(`ValueError` from unpacking a request line without exactly three tokens)
reaches the `except` clause having sent nothing. -/
def handle_body (date : String) (cfg : Config) (fs : FS)
    (request_data : String) : List Chunk :=
  if request_data = "" then []
  else
    match splitWs (firstLine request_data.data) with
    | [method, path, _blank] =>
      if method = "GET".data then
        serve_path date cfg fs (String.mk (resolve_target cfg.root.data path))
      else send_error date 404 "File Not Found"
    | _ => []

/-- The observable result of one connection: everything sent, and whether
the socket was closed. -/
structure HandleResult where
  sends : List Chunk
  closed : Bool
deriving DecidableEq

/-- `WebServer.handle_client` (lines 44-73): decode errors and parse
errors are swallowed by the `except` clause; the `finally` clause closes
the socket on every path. -/
def handle_client (date : String) (cfg : Config) (fs : FS) (r : RecvResult) :
    HandleResult :=
  match r with
  | RecvResult.decodeErr => { sends := [], closed := true }
  | RecvResult.data s => { sends := handle_body date cfg fs s, closed := true }

/-- A chunk that begins an HTTP response (a status line). -/
def isResponseStart : Chunk → Bool
  | Chunk.text s => pyStartswith ("HTTP/1.1 ".data) s.data
  | Chunk.raw _ => false

/-- How many HTTP responses a list of sent chunks contains. -/
def countResponses (sends : List Chunk) : Nat :=
  (sends.filter isResponseStart).length

/-- The request target contains a `..` path segment. -/
def containsDotDot (t : Chars) : Bool :=
  (splitSep '/' t).contains ['.', '.']

/-- `q` lies inside the directory tree rooted at `root`: it is the root
itself or a path below it (root plus a separator as an initial segment). -/
def underRoot (root q : String) : Bool :=
  q == root || pyStartswith (root ++ "/").data q.data

/-- A relative path whose components are all plain: nonempty, not `.`,
not `..`.  Such a path starts with no slash, ends with no slash, and is
left unchanged by normalization. -/
def validRel (p : Chars) : Bool := (splitSep '/' p).all isPlainSeg

/-- A normalized absolute document root other than `/` itself: a slash
followed by a valid relative path (so no trailing slash, no `.`/`..`
components, no doubled slash). -/
def normalRoot : Chars → Bool
  | [] => false
  | c :: r1 => c == '/' && validRel r1

theorem splitSep_ne_nil (sep : Char) (l : Chars) : splitSep sep l ≠ [] := by
  cases l with
  | nil => simp [splitSep]
  | cons c cs =>
    simp only [splitSep]
    split
    · simp
    · split <;> simp

theorem joinSegs_cons_cons (s h : Chars) (t : List Chars) :
    joinSegs (s :: h :: t) = s ++ '/' :: joinSegs (h :: t) := rfl

theorem joinSegs_splitSep (l : Chars) : joinSegs (splitSep '/' l) = l := by
  induction l with
  | nil => rfl
  | cons c cs ih =>
    rcases h : splitSep '/' cs with _ | ⟨h1, t1⟩
    · exact absurd h (splitSep_ne_nil _ _)
    · rw [h] at ih
      by_cases hc : c = '/'
      · subst hc
        simp [splitSep, h, joinSegs_cons_cons, ih]
      · simp only [splitSep, if_neg hc, h]
        cases t1 with
        | nil =>
          simp only [joinSegs] at ih ⊢
          rw [ih]
        | cons h2 t2 =>
          rw [joinSegs_cons_cons] at ih ⊢
          rw [List.cons_append, ih]

theorem splitSep_append (sep : Char) (a b : Chars) :
    splitSep sep (a ++ sep :: b) = splitSep sep a ++ splitSep sep b := by
  induction a with
  | nil => simp [splitSep]
  | cons c cs ih =>
    by_cases hc : c = sep
    · simp only [List.cons_append, splitSep, if_pos hc]
      exact congrArg (List.cons []) ih
    · simp only [List.cons_append, splitSep, if_neg hc]
      rcases h : splitSep sep cs with _ | ⟨h1, t1⟩
      · exact absurd h (splitSep_ne_nil _ _)
      · simp [ih, h]

theorem not_mem_splitSep (sep : Char) (l : Chars) :
    ∀ s ∈ splitSep sep l, sep ∉ s := by
  induction l with
  | nil => simp [splitSep]
  | cons c cs ih =>
    simp only [splitSep]
    by_cases hc : c = sep
    · simp only [if_pos hc]
      intro s hs
      rcases List.mem_cons.mp hs with hs | hs
      · subst hs; simp
      · exact ih s hs
    · simp only [if_neg hc]
      rcases h : splitSep sep cs with _ | ⟨h1, t1⟩
      · exact absurd h (splitSep_ne_nil _ _)
      · intro s hs
        rcases List.mem_cons.mp hs with hs | hs
        · subst hs
          intro hmem
          rcases List.mem_cons.mp hmem with h2 | h2
          · exact hc h2.symm
          · exact ih h1 (by rw [h]; exact List.mem_cons_self _ _) h2
        · exact ih s (by rw [h]; exact List.mem_cons_of_mem _ hs)

theorem mem_of_getLast?_eq {α : Type} {l : List α} {a : α}
    (h : l.getLast? = some a) : a ∈ l := by
  induction l with
  | nil => simp at h
  | cons c cs ih =>
    cases cs with
    | nil =>
      simp only [List.getLast?_singleton, Option.some.injEq] at h
      simp [h]
    | cons c2 cs2 =>
      rw [List.getLast?_cons_cons] at h
      exact List.mem_cons_of_mem _ (ih h)

theorem normParts_all_plain (n : Nat) (comps : List Chars) (acc : List Chars)
    (h : ∀ s ∈ comps, isPlainSeg s = true) :
    normParts n acc comps = acc.reverse ++ comps := by
  induction comps generalizing acc with
  | nil => simp [normParts]
  | cons comp rest ih =>
    have hc := h comp (List.mem_cons_self _ _)
    simp only [isPlainSeg, Bool.and_eq_true, decide_eq_true_eq] at hc
    show (if comp = [] ∨ comp = ['.'] then normParts n acc rest
      else if comp ≠ ['.', '.'] ∨ (n = 0 ∧ acc = []) ∨
          (acc ≠ [] ∧ acc.head? = some ['.', '.']) then
        normParts n (comp :: acc) rest
      else
        match acc with
        | [] => normParts n acc rest
        | _ :: t => normParts n t rest) = acc.reverse ++ comp :: rest
    rw [if_neg (by push_neg; exact ⟨hc.1.1, hc.1.2⟩)]
    rw [if_pos (Or.inl hc.2)]
    rw [ih _ (fun s hs => h s (List.mem_cons_of_mem _ hs))]
    simp

theorem joinSegs_append (a b : List Chars) (ha : a ≠ []) (hb : b ≠ []) :
    joinSegs (a ++ b) = joinSegs a ++ '/' :: joinSegs b := by
  induction a with
  | nil => exact absurd rfl ha
  | cons s rest ih =>
    cases rest with
    | nil =>
      cases b with
      | nil => exact absurd rfl hb
      | cons b1 bs => simp [joinSegs_cons_cons, joinSegs]
    | cons s2 rest2 =>
      have key : joinSegs ((s :: s2 :: rest2) ++ b)
          = s ++ '/' :: joinSegs ((s2 :: rest2) ++ b) :=
        joinSegs_cons_cons s s2 (rest2 ++ b)
      rw [key, ih (by simp), joinSegs_cons_cons]
      simp [List.append_assoc]

theorem pyStartswith_append (a b : Chars) : pyStartswith a (a ++ b) = true := by
  induction a with
  | nil => rfl
  | cons c cs ih => simp [pyStartswith, ih]

theorem validRel_ne_nil (p : Chars) (h : validRel p = true) : p ≠ [] := by
  intro hp
  subst hp
  simp [validRel, splitSep, isPlainSeg] at h

theorem validRel_head (p : Chars) (h : validRel p = true) :
    ∃ c cs, p = c :: cs ∧ c ≠ '/' := by
  cases p with
  | nil => exact absurd h (by simp [validRel, splitSep, isPlainSeg])
  | cons c cs =>
    refine ⟨c, cs, rfl, ?_⟩
    intro hc
    rw [validRel, splitSep, if_pos hc] at h
    simp [isPlainSeg] at h

theorem endsSlash_joinSegs (segs : List Chars) (hne : segs ≠ [])
    (h : ∀ s ∈ segs, s ≠ [] ∧ '/' ∉ s) : endsSlash (joinSegs segs) = false := by
  induction segs with
  | nil => exact absurd rfl hne
  | cons s rest ih =>
    cases rest with
    | nil =>
      have hs := h s (List.mem_cons_self _ _)
      simp only [joinSegs, endsSlash, beq_eq_false_iff_ne, ne_eq]
      intro hlast
      exact hs.2 (mem_of_getLast?_eq hlast)
    | cons s2 rest2 =>
      have hs2ne : joinSegs (s2 :: rest2) ≠ [] := by
        have := h s2 (List.mem_cons_of_mem _ (List.mem_cons_self _ _))
        cases rest2 with
        | nil => simpa [joinSegs] using this.1
        | cons s3 rest3 =>
          rw [joinSegs_cons_cons]
          intro hx
          have := List.append_eq_nil.mp hx
          simp at this
      rw [joinSegs_cons_cons, endsSlash, List.append_cons,
        List.getLast?_append_of_ne_nil _ hs2ne]
      have := ih (by simp) (fun t ht => h t (List.mem_cons_of_mem _ ht))
      simpa [endsSlash] using this

theorem validRel_endsSlash (p : Chars) (h : validRel p = true) :
    endsSlash p = false := by
  have hj := joinSegs_splitSep p
  rw [← hj]
  refine endsSlash_joinSegs _ (splitSep_ne_nil _ _) ?_
  intro s hs
  have hplain : isPlainSeg s = true := by
    have := (List.all_eq_true.mp h) s hs
    simpa using this
  constructor
  · simp only [isPlainSeg, Bool.and_eq_true, decide_eq_true_eq] at hplain
    exact hplain.1.1
  · exact not_mem_splitSep '/' p s hs

theorem splitSep_cons (sep c : Char) (cs : Chars) :
    splitSep sep (c :: cs) =
      if c = sep then [] :: splitSep sep cs
      else
        match splitSep sep cs with
        | [] => [[c]]
        | h :: t => (c :: h) :: t := rfl

theorem normParts_cons (n : Nat) (acc : List Chars) (comp : Chars)
    (rest : List Chars) :
    normParts n acc (comp :: rest) =
      if comp = [] ∨ comp = ['.'] then normParts n acc rest
      else if comp ≠ ['.', '.'] ∨ (n = 0 ∧ acc = []) ∨
          (acc ≠ [] ∧ acc.head? = some ['.', '.']) then
        normParts n (comp :: acc) rest
      else
        match acc with
        | [] => normParts n acc rest
        | _ :: t => normParts n t rest := rfl

theorem endsSlash_cons_of_ne_nil (c : Char) (l : Chars) (h : l ≠ []) :
    endsSlash (c :: l) = endsSlash l := by
  rw [endsSlash, endsSlash, show c :: l = [c] ++ l from rfl,
    List.getLast?_append_of_ne_nil _ h]

theorem normpath_valid_append (r1 p : Chars) (hr : validRel r1 = true)
    (hp : validRel p = true) :
    normpath ('/' :: (r1 ++ '/' :: p)) = '/' :: (r1 ++ '/' :: p) := by
  obtain ⟨d, ds, hd, hdne⟩ := validRel_head r1 hr
  have hall : ∀ s ∈ splitSep '/' r1 ++ splitSep '/' p, isPlainSeg s = true := by
    intro s hs
    rcases List.mem_append.mp hs with hs | hs
    · exact List.all_eq_true.mp hr s hs
    · exact List.all_eq_true.mp hp s hs
  have h2 : splitSep '/' ('/' :: (r1 ++ '/' :: p)) =
      [] :: (splitSep '/' r1 ++ splitSep '/' p) := by
    rw [splitSep_cons, if_pos rfl, splitSep_append]
  have h3 : normParts 1 [] ([] :: (splitSep '/' r1 ++ splitSep '/' p)) =
      splitSep '/' r1 ++ splitSep '/' p := by
    rw [normParts_cons, if_pos (Or.inl rfl), normParts_all_plain 1 _ [] hall]
    rfl
  have h4 : joinSegs (splitSep '/' r1 ++ splitSep '/' p) = r1 ++ '/' :: p := by
    rw [joinSegs_append _ _ (splitSep_ne_nil _ _) (splitSep_ne_nil _ _),
      joinSegs_splitSep, joinSegs_splitSep]
  have hcond : ¬(('/' :: (r1 ++ '/' :: p)).take 2 = ['/', '/'] ∧
      ('/' :: (r1 ++ '/' :: p)).take 3 ≠ ['/', '/', '/']) := by
    rw [hd]
    rintro ⟨h1, _⟩
    simp only [List.cons_append, List.take_succ_cons, List.take_zero,
      List.cons.injEq] at h1
    exact hdne h1.2.1
  have hisl : initialSlashesOf ('/' :: (r1 ++ '/' :: p)) = 1 := by
    rw [initialSlashesOf, if_neg hcond, if_pos (by simp)]
  rw [normpath, hisl, h2, h3, h4]
  rw [if_neg (by simp)]
  rfl

theorem resolve_target_valid (r1 p : Chars) (hr : validRel r1 = true)
    (hp : validRel p = true) :
    resolve_target ('/' :: r1) ('/' :: p) = '/' :: (r1 ++ '/' :: p) := by
  obtain ⟨c, cs, hc, hcne⟩ := validRel_head p hp
  have hpne : p ≠ [] := validRel_ne_nil p hp
  have hr1ne : r1 ≠ [] := validRel_ne_nil r1 hr
  have hends_p : endsSlash ('/' :: p) = false := by
    rw [endsSlash_cons_of_ne_nil _ _ hpne]
    exact validRel_endsSlash p hp
  have hends_r : endsSlash ('/' :: r1) = false := by
    rw [endsSlash_cons_of_ne_nil _ _ hr1ne]
    exact validRel_endsSlash r1 hr
  have hdrop : ('/' :: p).dropWhile (fun x => x = '/') = p := by
    rw [hc]
    simp [List.dropWhile_cons, hcne]
  have hjoin : pathJoin ('/' :: r1) p = '/' :: (r1 ++ '/' :: p) := by
    rw [pathJoin]
    rw [if_neg (by rw [hc]; simp [hcne])]
    rw [if_neg (by push_neg; exact ⟨by simp, by simp [hends_r]⟩)]
    rfl
  rw [resolve_target, if_neg (by simp [hends_p]), hdrop, hjoin]
  exact normpath_valid_append r1 p hr hp

theorem pyStartswith_resolved (r1 p : Chars) (hr : validRel r1 = true)
    (hp : validRel p = true) :
    pyStartswith ('/' :: r1) (resolve_target ('/' :: r1) ('/' :: p)) = true := by
  rw [resolve_target_valid r1 p hr hp,
    show '/' :: (r1 ++ '/' :: p) = ('/' :: r1) ++ '/' :: p from rfl]
  exact pyStartswith_append _ _

theorem handle_body_parsed (date : String) (cfg : Config) (fs : FS)
    (s : String) (m t v : Chars) (hs : s ≠ "")
    (hparse : splitWs (firstLine s.data) = [m, t, v]) :
    handle_body date cfg fs s =
      if m = "GET".data then
        serve_path date cfg fs (String.mk (resolve_target cfg.root.data t))
      else send_error date 404 "File Not Found" := by
  rw [handle_body, if_neg hs, hparse]

theorem handle_body_bad_tokens (date : String) (cfg : Config) (fs : FS)
    (s : String) (hs : s ≠ "")
    (hlen : (splitWs (firstLine s.data)).length ≠ 3) :
    handle_body date cfg fs s = [] := by
  rw [handle_body, if_neg hs]
  rcases h : splitWs (firstLine s.data) with _ | ⟨a, _ | ⟨b, _ | ⟨c, _ | ⟨d, l⟩⟩⟩⟩ <;>
    first
      | rfl
      | (exact absurd (by simp [h]) hlen)

theorem pyStartswith_head_ne (a b : Char) (as bs : Chars) (h : a ≠ b) :
    pyStartswith (a :: as) (b :: bs) = false := by
  simp [pyStartswith, h]

theorem build_headers_eq (date : String) (code : Nat) (msg ct : String)
    (cl : Nat) :
    build_headers date code msg ct cl =
      "HTTP/1.1 " ++ toString code ++ " " ++ msg ++ "\r\n" ++
      "Date: " ++ date ++ "\r\n" ++
      "Server: " ++ "NicksDiscountServer/1.0" ++ "\r\n" ++
      "Content-Type: " ++ ct ++ "\r\n" ++
      "Content-Length: " ++ toString cl ++ "\r\n" ++
      "Connection: close" ++ "\r\n" ++ "\r\n" := by
  apply String.ext
  simp only [build_headers, joinCRLF, serverName, String.data_append,
    List.append_assoc]

theorem build_headers_data (date : String) (code : Nat) (msg ct : String)
    (cl : Nat) :
    (build_headers date code msg ct cl).data =
      "HTTP/1.1 ".data ++ ((toString code).data ++ (" ".data ++ (msg.data ++
        ("\r\n".data ++ ("Date: ".data ++ (date.data ++ ("\r\n".data ++
        ("Server: ".data ++ (serverName.data ++ ("\r\n".data ++
        ("Content-Type: ".data ++ (ct.data ++ ("\r\n".data ++
        ("Content-Length: ".data ++ ((toString cl).data ++ ("\r\n".data ++
        ("Connection: close".data ++ ("\r\n".data ++
        "\r\n".data)))))))))))))))))) := by
  simp [build_headers, joinCRLF, String.data_append, List.append_assoc]

theorem isResponseStart_build_headers (date : String) (code : Nat)
    (msg ct : String) (cl : Nat) :
    isResponseStart (Chunk.text (build_headers date code msg ct cl)) = true := by
  show pyStartswith ("HTTP/1.1 ".data) (build_headers date code msg ct cl).data
    = true
  rw [build_headers_data]
  exact pyStartswith_append _ _

theorem isResponseStart_errorBody (code : Nat) (msg : String) :
    isResponseStart (Chunk.text (errorBody code msg)) = false := by
  show pyStartswith ("HTTP/1.1 ".data) (errorBody code msg).data = false
  have h0 : "<html><body><h1>".data = '<' :: "html><body><h1>".data := rfl
  have h1 : (errorBody code msg).data =
      '<' :: ("html><body><h1>".data ++ ((toString code).data ++ (" ".data ++
        (msg.data ++ "</h1></body></html>".data)))) := by
    rw [errorBody]
    simp only [String.data_append, List.append_assoc, h0, List.cons_append]
  rw [h1]
  have h2 : "HTTP/1.1 ".data = 'H' :: "TTP/1.1 ".data := rfl
  rw [h2]
  exact pyStartswith_head_ne _ _ _ _ (by decide)

theorem countResponses_send_error (date : String) (code : Nat) (msg : String) :
    countResponses (send_error date code msg) = 1 := by
  simp [countResponses, send_error, isResponseStart_build_headers,
    isResponseStart_errorBody]

theorem countResponses_pair (date : String) (code : Nat) (msg ct : String)
    (cl : Nat) (b : List Nat) :
    countResponses [Chunk.text (build_headers date code msg ct cl),
      Chunk.raw b] = 1 := by
  have h1 := isResponseStart_build_headers date code msg ct cl
  have h2 : isResponseStart (Chunk.raw b) = false := rfl
  simp [countResponses, List.filter_cons, h1, h2]

theorem countResponses_send_file (date : String) (fs : FS) (fp : String) :
    countResponses (send_file date fs fp) = 1 := by
  rw [send_file]
  rcases fs.lookup fp with _ | fi
  · exact countResponses_send_error date 404 "File Not Found"
  · cases hr : fi.readable with
    | false =>
      simp only [hr, Bool.false_eq_true, if_false]
      exact countResponses_send_error date 404 "File Not Found"
    | true =>
      simp only [hr, if_true]
      exact countResponses_pair date 200 "OKEE DOKEE" (contentTypeOf fp)
        fi.content.length fi.content

theorem data_mk (l : Chars) : (String.mk l).data = l := rfl

theorem endsSlash_append (a b : Chars) (hb : b ≠ []) :
    endsSlash (a ++ b) = endsSlash b := by
  rw [endsSlash, endsSlash, List.getLast?_append_of_ne_nil _ hb]

/-- C10: a connection whose received byte chunk is not valid UTF-8 gets no
response bytes at all; the `UnicodeDecodeError` is caught at the handler
boundary and the connection is closed silently. -/
theorem C10_decode_error_silent (date : String) (cfg : Config) (fs : FS) :
    (handle_client date cfg fs RecvResult.decodeErr).sends = [] ∧
    (handle_client date cfg fs RecvResult.decodeErr).closed = true :=
  ⟨rfl, rfl⟩

/-- C5: a connection whose single bounded read yields no data, or whose
first line does not split into exactly three whitespace-separated tokens,
gets no response bytes at all and the connection is closed. -/
theorem C5_silent_cases (date : String) (cfg : Config) (fs : FS) :
    ((handle_client date cfg fs (RecvResult.data "")).sends = [] ∧
     (handle_client date cfg fs (RecvResult.data "")).closed = true) ∧
    ∀ s : String, s ≠ "" → (splitWs (firstLine s.data)).length ≠ 3 →
      (handle_client date cfg fs (RecvResult.data s)).sends = [] ∧
      (handle_client date cfg fs (RecvResult.data s)).closed = true := by
  refine ⟨⟨rfl, rfl⟩, ?_⟩
  intro s hs hlen
  exact ⟨handle_body_bad_tokens date cfg fs s hs hlen, rfl⟩

theorem C5_witness :
    ((handle_client "D" ⟨"/www"⟩ [] (RecvResult.data "")).sends = [] ∧
     (handle_client "D" ⟨"/www"⟩ [] (RecvResult.data "")).closed = true) ∧
    (handle_client "D" ⟨"/www"⟩ [] (RecvResult.data "GET /x")).sends = [] ∧
    (handle_client "D" ⟨"/www"⟩ [] (RecvResult.data "GET /x")).closed = true :=
  ⟨(C5_silent_cases "D" ⟨"/www"⟩ []).1,
   (C5_silent_cases "D" ⟨"/www"⟩ []).2 "GET /x" (by decide) (by decide)⟩

/-- C9: for every status code and message, the error responder sends the
header block for that status (content type `text/html`, content length the
byte length of the body) followed by exactly the body
`<html><body><h1><code> <message></h1></body></html>`. -/
theorem C9_error_body_shape (date : String) (code : Nat) (msg : String) :
    send_error date code msg =
      [Chunk.text (build_headers date code msg "text/html"
        ("<html><body><h1>" ++ toString code ++ " " ++ msg ++
          "</h1></body></html>").utf8ByteSize),
       Chunk.text ("<html><body><h1>" ++ toString code ++ " " ++ msg ++
          "</h1></body></html>")] := rfl

/-- C8: the header block is exactly the status line followed by `Date`,
`Server`, `Content-Type`, `Content-Length` and `Connection: close` in
this order, every line CRLF-terminated, ending with the blank-line
terminator, and no other header. -/
theorem C8_header_block (date : String) (code : Nat) (msg ct : String)
    (cl : Nat) :
    build_headers date code msg ct cl =
      "HTTP/1.1 " ++ toString code ++ " " ++ msg ++ "\r\n" ++
      "Date: " ++ date ++ "\r\n" ++
      "Server: " ++ "NicksDiscountServer/1.0" ++ "\r\n" ++
      "Content-Type: " ++ ct ++ "\r\n" ++
      "Content-Length: " ++ toString cl ++ "\r\n" ++
      "Connection: close" ++ "\r\n" ++ "\r\n" :=
  build_headers_eq date code msg ct cl

/-- C3: a well-formed request line whose method token is not exactly
`GET` receives the 404 error response (never a 405), and nothing else. -/
theorem C3_non_get_404 (date : String) (cfg : Config) (fs : FS)
    (s m t v : String) (hs : s ≠ "")
    (hparse : splitWs (firstLine s.data) = [m.data, t.data, v.data])
    (hm : m ≠ "GET") :
    (handle_client date cfg fs (RecvResult.data s)).sends =
      send_error date 404 "File Not Found" := by
  show handle_body date cfg fs s = _
  rw [handle_body_parsed date cfg fs s m.data t.data v.data hs hparse]
  rw [if_neg (fun h => hm (String.ext h))]

theorem C3_witness :
    (handle_client "D" ⟨"/www"⟩ [] (RecvResult.data "POST /x HTTP/1.1")).sends =
      send_error "D" 404 "File Not Found" :=
  C3_non_get_404 "D" ⟨"/www"⟩ [] "POST /x HTTP/1.1" "POST" "/x" "HTTP/1.1"
    (by decide) (by decide) (by decide)

/-- C4: for every accepted connection and every outcome, the socket is
closed (the `finally` clause) and at most one HTTP response is sent. -/
theorem C4_close_and_single_response (date : String) (cfg : Config) (fs : FS)
    (r : RecvResult) :
    (handle_client date cfg fs r).closed = true ∧
    countResponses (handle_client date cfg fs r).sends ≤ 1 := by
  refine ⟨by cases r <;> rfl, ?_⟩
  cases r with
  | decodeErr => simp [handle_client, countResponses]
  | data s =>
    show countResponses (handle_body date cfg fs s) ≤ 1
    by_cases hs : s = ""
    · subst hs
      simp [handle_body, countResponses]
    · rcases h : splitWs (firstLine s.data) with _ | ⟨a, _ | ⟨b, _ | ⟨c, _ | ⟨d, l⟩⟩⟩⟩
      · rw [handle_body_bad_tokens date cfg fs s hs (by simp [h])]
        simp [countResponses]
      · rw [handle_body_bad_tokens date cfg fs s hs (by simp [h])]
        simp [countResponses]
      · rw [handle_body_bad_tokens date cfg fs s hs (by simp [h])]
        simp [countResponses]
      · rw [handle_body_parsed date cfg fs s a b c hs h]
        by_cases hm : a = "GET".data
        · rw [if_pos hm, serve_path]
          split
          · split
            · rw [countResponses_send_file]
            · rw [countResponses_send_error]
          · rw [countResponses_send_error]
        · rw [if_neg hm, countResponses_send_error]
      · rw [handle_body_bad_tokens date cfg fs s hs (by simp [h])]
        simp [countResponses]

/-- C1 as stated fails on the code: the containment check on line 61 is a
bare string-prefix test (`requested_path.startswith(self.root)`) on the
normalized path, so a `..` target normalizing to a sibling of the
document root whose name extends the root's as a string slips through.
With root `/www` and target `/../www2/secret`, the normalized absolute
path `/www2/secret` lies outside the root, yet the server responds 200
and sends the bytes of the escaped file. -/
theorem C1_counterexample :
    containsDotDot "/../www2/secret".data = true ∧
    resolve_target "/www".data "/../www2/secret".data = "/www2/secret".data ∧
    underRoot "/www" "/www2/secret" = false ∧
    (handle_client "D" ⟨"/www"⟩ [("/www2/secret", ⟨[1, 2, 3], true⟩)]
        (RecvResult.data "GET /../www2/secret HTTP/1.1")).sends =
      [Chunk.text (build_headers "D" 200 "OKEE DOKEE"
          "application/octet-stream" 3),
       Chunk.raw [1, 2, 3]] :=
  ⟨rfl, rfl, rfl, rfl⟩

/-- C1 amended: for every request target whose joined-and-normalized
absolute path does not begin with the document root string as a prefix,
the server responds 404 and never sends file contents.  (This
string-prefix test is all the code enforces; it is weaker than actual
containment in the document root tree.) -/
theorem C1_amended_prefix_check (date : String) (cfg : Config) (fs : FS)
    (s t v : String) (hs : s ≠ "")
    (hparse : splitWs (firstLine s.data) = ["GET".data, t.data, v.data])
    (hout : pyStartswith cfg.root.data
      (resolve_target cfg.root.data t.data) = false) :
    (handle_client date cfg fs (RecvResult.data s)).sends =
      send_error date 404 "File Not Found" := by
  show handle_body date cfg fs s = _
  rw [handle_body_parsed date cfg fs s "GET".data t.data v.data hs hparse,
    if_pos rfl, serve_path]
  rw [if_neg (by simp [data_mk, hout])]

theorem C1_amended_witness :
    (handle_client "D" ⟨"/www"⟩ [("/etc/passwd", ⟨[7], true⟩)]
        (RecvResult.data "GET /../etc/passwd HTTP/1.1")).sends =
      send_error "D" 404 "File Not Found" :=
  C1_amended_prefix_check "D" ⟨"/www"⟩ [("/etc/passwd", ⟨[7], true⟩)]
    "GET /../etc/passwd HTTP/1.1" "/../etc/passwd" "HTTP/1.1"
    (by decide) (by decide) (by decide)

/-- C7: the content type of a served file is determined by the static
extension table (`.html` to text/html, `.css` to text/css, `.jpg`/`.jpeg`
to image/jpeg, `.png` to image/png, `.gif` to image/gif, `.js` to
text/javascript); a path whose extension the registry does not know falls
back to `application/octet-stream`; and every successfully served file is
framed with exactly this content type. -/
theorem C7_content_type_table :
    contentTypeOf "/root/a.html" = "text/html" ∧
    contentTypeOf "/root/a.css" = "text/css" ∧
    contentTypeOf "/root/a.jpg" = "image/jpeg" ∧
    contentTypeOf "/root/a.jpeg" = "image/jpeg" ∧
    contentTypeOf "/root/a.png" = "image/png" ∧
    contentTypeOf "/root/a.gif" = "image/gif" ∧
    contentTypeOf "/root/a.js" = "text/javascript" ∧
    (∀ fp : String, guess_type fp = none →
      contentTypeOf fp = "application/octet-stream") ∧
    ∀ (date : String) (fs : FS) (fp : String) (fi : FileInfo),
      fs.lookup fp = some fi → fi.readable = true →
      send_file date fs fp =
        [Chunk.text (build_headers date 200 "OKEE DOKEE" (contentTypeOf fp)
            fi.content.length),
         Chunk.raw fi.content] := by
  refine ⟨rfl, rfl, rfl, rfl, rfl, rfl, rfl, ?_, ?_⟩
  · intro fp h
    rw [contentTypeOf, h]
    rfl
  · intro date fs fp fi hlk hrd
    rw [send_file, hlk]
    simp [hrd]

theorem C7_witness :
    contentTypeOf "/root/a.xyz" = "application/octet-stream" ∧
    send_file "D" [("/www/a.css", ⟨[1, 2], true⟩)] "/www/a.css" =
      [Chunk.text (build_headers "D" 200 "OKEE DOKEE" "text/css" 2),
       Chunk.raw [1, 2]] := by
  constructor
  · exact C7_content_type_table.2.2.2.2.2.2.2.1 "/root/a.xyz" (by decide)
  · have h := C7_content_type_table.2.2.2.2.2.2.2.2 "D"
      [("/www/a.css", ⟨[1, 2], true⟩)] "/www/a.css" ⟨[1, 2], true⟩
      (by decide) rfl
    rw [h]
    rfl

/-- C6: for a GET whose target ends with a path separator (including the
bare root `/`), the resolver appends the literal `index.html` before
resolution; if the resolved path passes the containment check and names
an existing readable file, it is served with 200, otherwise the response
is the 404 error. -/
theorem C6_trailing_slash (date : String) (cfg : Config) (fs : FS)
    (s t v : String) (hs : s ≠ "")
    (hparse : splitWs (firstLine s.data) = ["GET".data, t.data, v.data])
    (hslash : endsSlash t.data = true) :
    resolve_target cfg.root.data t.data =
      resolve_target cfg.root.data (t.data ++ "index.html".data) ∧
    (∀ fi : FileInfo,
      pyStartswith cfg.root.data (resolve_target cfg.root.data t.data) = true →
      fs.lookup (String.mk (resolve_target cfg.root.data t.data)) = some fi →
      fi.readable = true →
      (handle_client date cfg fs (RecvResult.data s)).sends =
        [Chunk.text (build_headers date 200 "OKEE DOKEE"
            (contentTypeOf (String.mk (resolve_target cfg.root.data t.data)))
            fi.content.length),
         Chunk.raw fi.content]) ∧
    ((pyStartswith cfg.root.data (resolve_target cfg.root.data t.data) = false ∨
      fs.lookup (String.mk (resolve_target cfg.root.data t.data)) = none ∨
      (∃ fi : FileInfo,
        fs.lookup (String.mk (resolve_target cfg.root.data t.data)) = some fi ∧
        fi.readable = false)) →
      (handle_client date cfg fs (RecvResult.data s)).sends =
        send_error date 404 "File Not Found") := by
  have happ : endsSlash (t.data ++ "index.html".data) = false := by
    rw [endsSlash_append _ _ (by decide)]
    rfl
  have h1 : resolve_target cfg.root.data t.data =
      resolve_target cfg.root.data (t.data ++ "index.html".data) := by
    rw [resolve_target, resolve_target, if_pos hslash, if_neg (by simp [happ])]
  have hmain : (handle_client date cfg fs (RecvResult.data s)).sends =
      serve_path date cfg fs
        (String.mk (resolve_target cfg.root.data t.data)) := by
    show handle_body date cfg fs s = _
    rw [handle_body_parsed date cfg fs s "GET".data t.data v.data hs hparse,
      if_pos rfl]
  refine ⟨h1, ?_, ?_⟩
  · intro fi hsw hlk hrd
    rw [hmain, serve_path, if_pos hsw, if_pos (by rw [hlk]; rfl),
      send_file, hlk]
    simp [hrd]
  · intro hfail
    rw [hmain, serve_path]
    rcases hfail with h | h | ⟨fi, hlk, hrd⟩
    · rw [if_neg (by simp [data_mk, h])]
    · by_cases hsw : pyStartswith cfg.root.data
          (resolve_target cfg.root.data t.data) = true
      · rw [if_pos hsw, if_neg (by rw [h]; simp)]
      · rw [if_neg (by simpa [data_mk] using hsw)]
    · by_cases hsw : pyStartswith cfg.root.data
          (resolve_target cfg.root.data t.data) = true
      · rw [if_pos hsw, if_pos (by rw [hlk]; rfl), send_file, hlk]
        simp [hrd]
      · rw [if_neg (by simpa [data_mk] using hsw)]

theorem C6_witness :
    (handle_client "D" ⟨"/www"⟩ [("/www/index.html", ⟨[10, 20], true⟩)]
        (RecvResult.data "GET / HTTP/1.1")).sends =
      [Chunk.text (build_headers "D" 200 "OKEE DOKEE" "text/html" 2),
       Chunk.raw [10, 20]] := by
  have h := (C6_trailing_slash "D" ⟨"/www"⟩
      [("/www/index.html", ⟨[10, 20], true⟩)] "GET / HTTP/1.1" "/" "HTTP/1.1"
      (by decide) (by decide) (by decide)).2.1
    ⟨[10, 20], true⟩ (by decide) (by decide) rfl
  rw [h]
  rfl

/-- C2: a GET for `/p`, where `p` is a valid relative path (nonempty
plain components, no `.`/`..`) and the document root is a normalized
absolute path, with an existing readable regular file at `root/p`,
returns status 200 with `Content-Length` equal to the file's exact byte
count and a body byte-for-byte identical to the file's contents. -/
theorem C2_valid_file_served (date : String) (cfg : Config) (fs : FS)
    (s p v : String) (c : List Nat)
    (hroot : normalRoot cfg.root.data = true)
    (hp : validRel p.data = true)
    (hs : s ≠ "")
    (hparse : splitWs (firstLine s.data) =
      ["GET".data, '/' :: p.data, v.data])
    (hfile : fs.lookup (cfg.root ++ "/" ++ p) = some ⟨c, true⟩) :
    (handle_client date cfg fs (RecvResult.data s)).sends =
      [Chunk.text (build_headers date 200 "OKEE DOKEE"
          (contentTypeOf (cfg.root ++ "/" ++ p)) c.length),
       Chunk.raw c] := by
  obtain ⟨r1, hr, hvr⟩ : ∃ r1, cfg.root.data = '/' :: r1 ∧
      validRel r1 = true := by
    rcases h0 : cfg.root.data with _ | ⟨c0, r1⟩
    · rw [h0] at hroot
      simp [normalRoot] at hroot
    · rw [h0] at hroot
      simp only [normalRoot, Bool.and_eq_true, beq_iff_eq] at hroot
      exact ⟨r1, by rw [hroot.1], hroot.2⟩
  have hres : resolve_target cfg.root.data ('/' :: p.data) =
      cfg.root.data ++ '/' :: p.data := by
    rw [hr]
    exact resolve_target_valid r1 p.data hvr hp
  have hdata : (cfg.root ++ "/" ++ p).data =
      cfg.root.data ++ '/' :: p.data := by
    simp [String.data_append, List.append_assoc]
  have hkey : String.mk (resolve_target cfg.root.data ('/' :: p.data)) =
      cfg.root ++ "/" ++ p := by
    apply String.ext
    rw [data_mk, hres, hdata]
  have hsw : pyStartswith cfg.root.data (cfg.root ++ "/" ++ p).data = true := by
    rw [hdata]
    exact pyStartswith_append _ _
  show handle_body date cfg fs s = _
  rw [handle_body_parsed date cfg fs s "GET".data ('/' :: p.data) v.data hs
    hparse, if_pos rfl, hkey, serve_path, if_pos hsw,
    if_pos (by rw [hfile]; rfl), send_file, hfile]
  rfl

theorem C2_witness :
    (handle_client "D" ⟨"/www"⟩ [("/www/index.html", ⟨[104, 105], true⟩)]
        (RecvResult.data "GET /index.html HTTP/1.1")).sends =
      [Chunk.text (build_headers "D" 200 "OKEE DOKEE" "text/html" 2),
       Chunk.raw [104, 105]] := by
  have h := C2_valid_file_served "D" ⟨"/www"⟩
    [("/www/index.html", ⟨[104, 105], true⟩)] "GET /index.html HTTP/1.1"
    "index.html" "HTTP/1.1" [104, 105] (by decide) (by decide) (by decide)
    (by decide) (by decide)
  rw [h]
  rfl
